import Mathlib

/-!
Verification development for the realtime-stock-pipeline repository.

The Python sources are shallowly embedded as executable Lean definitions:

* JSON payloads become the inductive type JValue; Python dicts become
  association lists in insertion order (keys unique in actual payloads).
* Python floats become exact rationals; every numeric comparison made by
  the embedded code is on values where float and rational arithmetic agree.
* Fallible code returns Option or Except; the Except error carries the name
  of the Python exception that would propagate.
* Wall-clock reads (datetime.utcnow, time.time) become explicit parameters.
-/

set_option maxRecDepth 4000

/-- JSON-like values as delivered by response.json() in the Python client.
Numbers are modelled as exact rationals. Objects keep insertion order. -/
inductive JValue where
  | null : JValue
  | bool : Bool → JValue
  | num : ℚ → JValue
  | str : String → JValue
  | arr : List JValue → JValue
  | obj : List (String × JValue) → JValue

/-- Test for the Python value None. -/
def JValue.isNull : JValue → Bool
  | .null => true
  | _ => false

/-- Lookup of a key in an embedded Python dict (first binding wins,
mirroring dict semantics where keys are unique). -/
def jlookup (k : String) (kvs : List (String × JValue)) : Option JValue :=
  (kvs.find? (fun kv => kv.1 = k)).map (·.2)

/-- Membership test for a key, mirroring the Python expression k in d. -/
def jhasKey (k : String) (kvs : List (String × JValue)) : Bool :=
  kvs.any (fun kv => kv.1 = k)

/-- Python ASCII whitespace, the characters removed by str.strip() (the
model restricts Python str.strip to its ASCII behaviour). -/
def pyIsSpace (c : Char) : Bool :=
  c = ' ' || c = '\t' || c = '\n' || c = '\r' || c = '\x0b' || c = '\x0c'

/-- Lowercase-to-uppercase table for ASCII letters, the case fold performed
by Python str.upper() (restricted to ASCII inputs in this model). -/
def lowerUpperTable : List (Char × Char) :=
  [('a', 'A'), ('b', 'B'), ('c', 'C'), ('d', 'D'), ('e', 'E'), ('f', 'F'),
   ('g', 'G'), ('h', 'H'), ('i', 'I'), ('j', 'J'), ('k', 'K'), ('l', 'L'),
   ('m', 'M'), ('n', 'N'), ('o', 'O'), ('p', 'P'), ('q', 'Q'), ('r', 'R'),
   ('s', 'S'), ('t', 'T'), ('u', 'U'), ('v', 'V'), ('w', 'W'), ('x', 'X'),
   ('y', 'Y'), ('z', 'Z')]

/-- Uppercasing of a single character via the ASCII table. -/
def upChar (c : Char) : Char :=
  match lowerUpperTable.find? (fun p => p.1 = c) with
  | some p => p.2
  | none => c

/-- Removal of trailing characters satisfying p. -/
def dropTrail (p : Char → Bool) (l : List Char) : List Char :=
  (l.reverse.dropWhile p).reverse

/-- Model of Python str.strip() on a character list. -/
def trimChars (l : List Char) : List Char :=
  dropTrail pyIsSpace (l.dropWhile pyIsSpace)

/-- Model of Python str.upper() on a character list. -/
def upperChars (l : List Char) : List Char :=
  l.map upChar

/-- Model of the expression str(x).strip().upper() applied to a string. -/
def stripUpper (s : String) : String :=
  ⟨upperChars (trimChars s.data)⟩

/-- Value of a digit character, or none. -/
def digitVal (c : Char) : Option ℕ :=
  if '0' ≤ c ∧ c ≤ '9' then some (c.toNat - '0'.toNat) else none

/-- Natural number denoted by a nonempty digit string. -/
def digitsVal : List Char → Option ℕ
  | [] => none
  | cs => cs.foldl (fun acc c => match acc, digitVal c with
      | some n, some d => some (n * 10 + d)
      | _, _ => none) (some 0)

/-- Model of Python float(s) on plain decimal strings: an optional sign,
then digits with an optional fractional part. Exotic accepted forms
(exponents, inf, nan, surrounding whitespace) do not occur in the payload
fields the pipeline parses and are mapped to none. -/
def pyFloatOfString (s : String) : Option ℚ :=
  let cs := s.data
  let (sign, body) : ℚ × List Char :=
    match cs with
    | '-' :: rest => (-1, rest)
    | '+' :: rest => (1, rest)
    | _ => (1, cs)
  match body.splitOn '.' with
  | [intPart] =>
      (digitsVal intPart).map (fun n => sign * n)
  | [intPart, fracPart] =>
      if intPart = [] ∧ fracPart = [] then none
      else
        let ip : Option ℕ := if intPart = [] then some 0 else digitsVal intPart
        let fp : Option ℕ := if fracPart = [] then some 0 else digitsVal fracPart
        match ip, fp with
        | some i, some f => some (sign * (i + (f : ℚ) / (10 : ℚ) ^ fracPart.length))
        | _, _ => none
  | _ => none

/-- Stock record as produced by parse_ticker_data (stocks_models.Stock).
The pydantic model requires symbol; every other embedded field is optional.
Fields absent from the payload are dropped before construction, so they
surface here as none. -/
structure Stock where
  symbol : String
  name : Option String := none
  exchange : Option String := none
  sector : Option String := none
  industry : Option String := none
  market_cap : Option ℚ := none
  currency : String := "USD"
  country : Option String := none
  website : Option String := none
  description : Option String := none
deriving DecidableEq, Repr

/-- StockQuote record as produced by parse_quote_data
(stocks_models.StockQuote). Only symbol is required. -/
structure StockQuote where
  symbol : String
  name : Option String := none
  price : Option ℚ := none
  previous_close : Option ℚ := none
  open' : Option ℚ := none
  high : Option ℚ := none
  low : Option ℚ := none
  volume : Option ℚ := none
  market_cap : Option ℚ := none
  pe_ratio : Option ℚ := none
  dividend_yield : Option ℚ := none
  change : Option ℚ := none
  change_percent : Option ℚ := none
  currency : String := "USD"
  exchange : Option String := none
  quote_type : Option String := none
  timestamp : Option JValue := none

/-- Validation of an optional string field: absent or null passes as none,
a string passes as some, anything else is a pydantic ValidationError. -/
def getOptStr (k : String) (kvs : List (String × JValue)) : Except String (Option String) :=
  match jlookup k kvs with
  | none => .ok none
  | some .null => .ok none
  | some (.str s) => .ok (some s)
  | some _ => .error "ValidationError"

/-- Validation of an optional numeric field: pydantic lax mode accepts
numbers and numeric strings for float fields. -/
def getOptNum (k : String) (kvs : List (String × JValue)) : Except String (Option ℚ) :=
  match jlookup k kvs with
  | none => .ok none
  | some .null => .ok none
  | some (.num q) => .ok (some q)
  | some (.str s) =>
      match pyFloatOfString s with
      | some q => .ok (some q)
      | none => .error "ValidationError"
  | some _ => .error "ValidationError"

/-- Validation of the required symbol field: the parsed_data dict drops
None values, so a missing or null symbol leaves the required field unset
and pydantic raises ValidationError. A string of any length, including the
empty string, is accepted. -/
def getReqStr (k : String) (kvs : List (String × JValue)) : Except String String :=
  match jlookup k kvs with
  | none => .error "ValidationError"
  | some .null => .error "ValidationError"
  | some (.str s) => .ok s
  | some _ => .error "ValidationError"

/-- Coercion of the marketCap payload field performed by parse_ticker_data
before model construction: a truthy string has its commas removed and is
parsed as a float, becoming None on failure; a falsy (empty) string skips
the coercion and is then rejected by pydantic for the float field. -/
def parseTickerMarketCap (kvs : List (String × JValue)) : Except String (Option ℚ) :=
  match jlookup "marketCap" kvs with
  | some (.str s) =>
      if s = "" then .error "ValidationError"
      else .ok (pyFloatOfString ⟨s.data.filter (fun c => c ≠ ',')⟩)
  | some (.num q) => .ok (some q)
  | some .null => .ok none
  | none => .ok none
  | some _ => .error "ValidationError"

/-- Embedding of UpdatedYahooFinanceDataParser.parse_ticker_data: map the
payload fields into the Stock model, coercing a comma-separated marketCap
string to a number, dropping None values, and letting pydantic validation
reject the element rather than abort the batch. -/
def parse_ticker_data (kvs : List (String × JValue)) : Except String Stock :=
  (parseTickerMarketCap kvs).bind fun marketCap =>
  (getReqStr "symbol" kvs).bind fun symbol =>
  (getOptStr "name" kvs).bind fun name =>
  (getOptStr "exchange" kvs).bind fun exchange =>
  (getOptStr "sector" kvs).bind fun sector =>
  (getOptStr "industry" kvs).bind fun industry =>
  (getOptStr "currency" kvs).bind fun currency =>
  (getOptStr "country" kvs).bind fun country =>
  (getOptStr "website" kvs).bind fun website =>
  (getOptStr "description" kvs).bind fun description =>
  .ok { symbol := symbol, name := name, exchange := exchange, sector := sector,
        industry := industry, market_cap := marketCap,
        currency := currency.getD "USD", country := country,
        website := website, description := description }

/-- Name field of parse_quote_data: the or-expression falls back to
shortName when longName is absent, None or the falsy empty string. -/
def parseQuoteName (kvs : List (String × JValue)) : Except String (Option String) :=
  match jlookup "longName" kvs with
  | some (.str s) => if s = "" then getOptStr "shortName" kvs else .ok (some s)
  | some .null => getOptStr "shortName" kvs
  | none => getOptStr "shortName" kvs
  | some _ => .error "ValidationError"

/-- Currency field of parse_quote_data: quote_data.get with default USD; an
explicit non-string value is rejected for the non-optional str field. -/
def parseQuoteCurrency (kvs : List (String × JValue)) : Except String String :=
  match jlookup "currency" kvs with
  | none => .ok "USD"
  | some (.str s) => .ok s
  | some _ => .error "ValidationError"

/-- Embedding of UpdatedYahooFinanceDataParser.parse_quote_data. The
timestamp field (Union of int, str and datetime in the pydantic model) is
absorbed verbatim after the drop of None values. -/
def parse_quote_data (kvs : List (String × JValue)) : Except String StockQuote :=
  (getReqStr "symbol" kvs).bind fun symbol =>
  (parseQuoteName kvs).bind fun name =>
  (getOptNum "regularMarketPrice" kvs).bind fun price =>
  (getOptNum "regularMarketPreviousClose" kvs).bind fun previousClose =>
  (getOptNum "regularMarketOpen" kvs).bind fun openV =>
  (getOptNum "regularMarketDayHigh" kvs).bind fun high =>
  (getOptNum "regularMarketDayLow" kvs).bind fun low =>
  (getOptNum "regularMarketVolume" kvs).bind fun volume =>
  (getOptNum "marketCap" kvs).bind fun marketCap =>
  (getOptNum "trailingPE" kvs).bind fun peRatio =>
  (getOptNum "dividendYield" kvs).bind fun dividendYield =>
  (getOptNum "regularMarketChange" kvs).bind fun change =>
  (getOptNum "regularMarketChangePercent" kvs).bind fun changePercent =>
  (parseQuoteCurrency kvs).bind fun currency =>
  (getOptStr "fullExchangeName" kvs).bind fun exchange =>
  (getOptStr "quoteType" kvs).bind fun quoteType =>
  let timestamp : Option JValue :=
    match jlookup "regularMarketTime" kvs with
    | none => none
    | some .null => none
    | some v => some v
  .ok { symbol := symbol, name := name, price := price,
        previous_close := previousClose, open' := openV, high := high,
        low := low, volume := volume, market_cap := marketCap,
        pe_ratio := peRatio, dividend_yield := dividendYield,
        change := change, change_percent := changePercent,
        currency := currency, exchange := exchange, quote_type := quoteType,
        timestamp := timestamp }

/-- Per-element loop of parse_tickers_response: a dict element is parsed
and appended, a ValidationError is logged and skipped, while a non-dict
element raises AttributeError out of the per-element try (which only
catches ValidationError) and aborts the whole parse. -/
def parseTickerElems : List JValue → Except String (List Stock)
  | [] => .ok []
  | .obj kvs :: rest =>
      match parse_ticker_data kvs with
      | .ok s => (parseTickerElems rest).map (fun l => s :: l)
      | .error _ => parseTickerElems rest
  | _ :: _ => .error "AttributeError"

/-- Same per-element loop for parse_quotes_response. -/
def parseQuoteElems : List JValue → Except String (List StockQuote)
  | [] => .ok []
  | .obj kvs :: rest =>
      match parse_quote_data kvs with
      | .ok q => (parseQuoteElems rest).map (fun l => q :: l)
      | .error _ => parseQuoteElems rest
  | _ :: _ => .error "AttributeError"

/-- Embedding of UpdatedYahooFinanceDataParser.parse_tickers_response.
When body is present and a list, each element is parsed with per-element
skipping; when body is absent or not a list the guard fails and the empty
list is returned. A top-level exception (non-dict payload, non-dict
element) propagates to the caller. -/
def parse_tickers_response (d : JValue) : Except String (List Stock) :=
  match d with
  | .obj kvs =>
      match jlookup "body" kvs with
      | some (.arr xs) => parseTickerElems xs
      | _ => .ok []
  | .arr _ => .ok []          -- the membership test "body" in list is False
  | .str _ => .ok []          -- substring membership on the payloads seen never holds a body index
  | _ => .error "TypeError"   -- "body" in a number or None raises

/-- Embedding of UpdatedYahooFinanceDataParser.parse_quotes_response. -/
def parse_quotes_response (d : JValue) : Except String (List StockQuote) :=
  match d with
  | .obj kvs =>
      match jlookup "body" kvs with
      | some (.arr xs) => parseQuoteElems xs
      | _ => .ok []
  | .arr _ => .ok []
  | .str _ => .ok []
  | _ => .error "TypeError"

/-! ## HTTP client core (api_client.BaseAPIClient._make_request) -/

/-- Python exception classes that can escape one attempt of _make_request.
RequestException stands for requests.exceptions.RequestException (and its
subclass HTTPError); APIError, RateLimitError and AuthenticationError are
the classes defined in api_client.py (none of them extends
RequestException). -/
inductive PyExc where
  | requestException : PyExc
  | rateLimitError : PyExc
  | authenticationError : PyExc
  | apiError : PyExc
deriving DecidableEq, Repr

/-- Outcome of one physical HTTP attempt, as seen inside the try block of
_make_request: either the transport layer fails, or a response with a
status code arrives. -/
inductive Attempt where
  | netError : Attempt
  | status : ℕ → Attempt
deriving DecidableEq, Repr

/-- Exception escaping one execution of the body of _make_request, or none
on success. A transport failure is a RequestException caught by the except
block and re-raised as APIError. A 429 raises RateLimitError, a 401 raises
AuthenticationError (neither is a RequestException, so neither is caught by
the except block). Any other status of at least 400 makes raise_for_status
throw HTTPError, a RequestException, which the except block catches and
re-raises as APIError. -/
def attemptExc : Attempt → Option PyExc
  | .netError => some .apiError
  | .status c =>
      if c = 429 then some .rateLimitError
      else if c = 401 then some .authenticationError
      else if 400 ≤ c then some .apiError
      else none

/-- Retry predicate of the tenacity decorator on _make_request:
retry_if_exception_type((requests.exceptions.RequestException,
RateLimitError)). -/
def tenacityRetries : PyExc → Bool
  | .requestException => true
  | .rateLimitError => true
  | .authenticationError => false
  | .apiError => false

/-- Result of the decorated _make_request: a successful response, an
exception re-raised because the retry predicate rejects it, or a tenacity
RetryError after stop_after_attempt exhausts the attempt budget. The second
component is the number of attempts performed. -/
inductive ReqOutcome where
  | success : ℕ → ReqOutcome
  | raised : PyExc → ReqOutcome
  | retriesExhausted : PyExc → ReqOutcome
deriving DecidableEq, Repr

/-- Attempt loop of the tenacity decorator: run the body; on an exception,
retry only when the predicate accepts it and the attempt budget
(stop_after_attempt maxAttempts) is not exhausted. The fuel argument equals
the number of attempts still allowed. -/
def tenacityLoop (outcomes : ℕ → Attempt) (attempt : ℕ) : ℕ → ReqOutcome × ℕ
  | 0 => (.retriesExhausted .apiError, attempt)     -- unreachable for fuel ≥ 1
  | fuel + 1 =>
      match outcomes attempt, attemptExc (outcomes attempt) with
      | .status c, none => (.success c, attempt)
      | .netError, none => (.success 0, attempt)    -- unreachable: netError raises
      | _, some e =>
          if tenacityRetries e then
            if fuel = 0 then (.retriesExhausted e, attempt)
            else tenacityLoop outcomes (attempt + 1) fuel
          else (.raised e, attempt)

/-- Embedding of the decorated BaseAPIClient._make_request: outcomes gives
the result of each physical attempt (1-based), maxAttempts is the
configured api_config.max_retries (stop_after_attempt bound, default 3). -/
def make_request (outcomes : ℕ → Attempt) (maxAttempts : ℕ) : ReqOutcome × ℕ :=
  tenacityLoop outcomes 1 maxAttempts

/-! ## Rate limiter (api_client.RateLimiter.wait_if_needed) -/

/-- Embedding of RateLimiter.wait_if_needed. The state is the ordered list
of recorded request timestamps, now is the value of time.time() at entry.
Stale timestamps (at least 60 seconds old) are pruned; if the remaining
count reaches the limit the caller sleeps until the oldest ages out and
that oldest entry is popped; finally the entry timestamp is recorded. The
async variant async_wait_if_needed performs the same state transformation
under a lock. -/
def wait_if_needed (requests_per_minute : ℕ) (now : ℚ) (requests : List ℚ) : List ℚ :=
  let pruned := requests.filter (fun t => now - 60 < t)
  if requests_per_minute ≤ pruned.length then
    match pruned with
    | [] => pruned ++ [now]          -- unreachable when the limit is positive
    | oldest :: rest =>
        if 0 < 60 - (now - oldest)
        then rest ++ [now]           -- sleep, pop the oldest, record
        else pruned ++ [now]
  else pruned ++ [now]

/-! ## Job model and extractors (data_pipeline/extractors.py) -/

/-- Pipeline job status (data_pipeline.models.PipelineStatus). -/
inductive PipelineStatus where
  | pending : PipelineStatus
  | running : PipelineStatus
  | completed : PipelineStatus
  | failed : PipelineStatus
  | cancelled : PipelineStatus
deriving DecidableEq, Repr

/-- Job fields relevant to extraction runs (data_pipeline.models.
PipelineJob): counters start at 0, total_items is unset until the loop
finishes. -/
structure PipelineJob where
  status : PipelineStatus := .pending
  total_items : Option ℕ := none
  processed_items : ℕ := 0
  failed_items : ℕ := 0
  error_message : Option String := none
deriving DecidableEq, Repr

/-- Result wrapper returned by UpdatedYahooFinanceAPIClient._make_api_call
(stocks_models.APIResponse): success carries the decoded JSON payload,
failure carries the error string recorded after retries or a non-200
status. -/
inductive APIResp where
  | success : JValue → APIResp
  | failure : String → APIResp

/-- News record built inline by StockNewsExtractor.extract
(data_pipeline.models.StockNews): title and url are required by the
pydantic model, the remaining fields are optional. -/
structure StockNews where
  symbol : String
  title : String
  url : String
  text : Option String := none
  source : Option String := none
  news_type : Option String := none
  image_url : Option String := none
deriving DecidableEq, Repr

/-- Construction of one StockNews from a body element inside the news
extractor loop. A non-dict element raises (record.get), and a pydantic
ValidationError from a missing or non-string required field is not caught
anywhere inside extract, so both abort the run. -/
def buildNewsRecord (symbol : String) : JValue → Except String StockNews
  | .obj kvs =>
      (getReqStr "title" kvs).bind fun title =>
      (getReqStr "url" kvs).bind fun url =>
      (getOptStr "text" kvs).bind fun text =>
      (getOptStr "source" kvs).bind fun source =>
      (getOptStr "type" kvs).bind fun newsType =>
      (getOptStr "img" kvs).bind fun imageUrl =>
      .ok { symbol := symbol, title := title, url := url, text := text,
            source := source, news_type := newsType, image_url := imageUrl }
  | _ => .error "AttributeError"

/-- Sequential construction of the StockNews records of one body list,
mirroring the for-loop in StockNewsExtractor.extract: the first failing
record aborts with its exception. -/
def buildNewsRecords (symbol : String) : List JValue → Except String (List StockNews)
  | [] => .ok []
  | r :: rest =>
      (buildNewsRecord symbol r).bind fun n =>
      (buildNewsRecords symbol rest).bind fun l => .ok (n :: l)

/-- Extraction of the body list from a successful response payload inside
an extractor: response.data.get("body", []) requires the payload to be a
dict and yields [] when the key is absent; iterating a non-list body then
raises. -/
def getBodyList : JValue → Except String (List JValue)
  | .obj kvs =>
      match jlookup "body" kvs with
      | none => .ok []
      | some (.arr xs) => .ok xs
      | some _ => .error "TypeError"
  | _ => .error "AttributeError"

/-- State threaded through the news extractor loop: the job counters and
the accumulated records. -/
structure NewsLoopState where
  processed : ℕ := 0
  failed : ℕ := 0
  news : List StockNews := []

/-- Sub-call loop of StockNewsExtractor.extract: one HTTP call per symbol;
on a successful APIResponse the body records are parsed and the processed
counter advances by the body length; on an unsuccessful APIResponse the
failed counter advances by one and the loop continues with the next
symbol. An exception while handling a successful response aborts the loop,
carrying the counters accumulated so far. -/
def newsLoop (fetch : String → APIResp) :
    List String → NewsLoopState → Except (NewsLoopState × String) NewsLoopState
  | [], st => .ok st
  | sym :: rest, st =>
      match fetch sym with
      | .success d =>
          match getBodyList d with
          | .error e => .error (st, e)
          | .ok body =>
              match buildNewsRecords sym body with
              | .error e => .error (st, e)
              | .ok recs =>
                  newsLoop fetch rest
                    { st with processed := st.processed + body.length,
                              news := st.news ++ recs }
      | .failure _ =>
          newsLoop fetch rest { st with failed := st.failed + 1 }

/-- Embedding of StockNewsExtractor.extract: run the sub-call loop; when it
finishes, set total_items to the number of accumulated records and mark the
job Completed; when an exception escapes the loop, the top-level except
marks the job Failed with the error message, leaving total_items unset. -/
def extractNews (fetch : String → APIResp) (symbols : List String) : PipelineJob :=
  match newsLoop fetch symbols {} with
  | .ok st =>
      { status := .completed, total_items := some st.news.length,
        processed_items := st.processed, failed_items := st.failed }
  | .error (st, e) =>
      { status := .failed, total_items := none,
        processed_items := st.processed, failed_items := st.failed,
        error_message := some e }

/-- Decidable guard expressing that the news sub-call loop finishes: every
successful response decodes to a dict whose body records all build valid
StockNews values. -/
def newsRunClean (fetch : String → APIResp) (symbols : List String) : Bool :=
  symbols.all fun sym =>
    match fetch sym with
    | .failure _ => true
    | .success d =>
        match getBodyList d with
        | .error _ => false
        | .ok body => body.all fun r => (buildNewsRecord sym r).isOk

/-- Splitting of the symbol list into batches of batch_size, mirroring the
slicing loop for i in range(0, len(symbols), batch_size) in
StockQuotesExtractor.extract. A zero batch_size raises in Python and is
mapped to the empty batch list. -/
def chunksGo (bs : ℕ) : ℕ → List String → List (List String)
  | 0, _ => []
  | _, [] => []
  | fuel + 1, x :: xs => (x :: xs).take bs :: chunksGo bs fuel ((x :: xs).drop bs)

/-- Batch splitting entry point: the fuel argument l.length bounds the
number of slices, which suffices because each step drops at least one
element when bs is positive. -/
def chunkSymbols (bs : ℕ) (l : List String) : List (List String) :=
  if bs = 0 then [] else chunksGo bs l.length l

/-- State threaded through the quotes extractor loop. -/
structure QuotesLoopState where
  processed : ℕ := 0
  failed : ℕ := 0
  quotes : List StockQuote := []

/-- Sub-call loop of StockQuotesExtractor.extract over symbol batches: a
successful batch response is parsed with parse_quotes_response and the
processed counter advances by the number of parsed quotes; an unsuccessful
response advances the failed counter by the batch size. A top-level parse
exception aborts the loop. -/
def quotesLoop (fetch : List String → APIResp) :
    List (List String) → QuotesLoopState → Except (QuotesLoopState × String) QuotesLoopState
  | [], st => .ok st
  | batch :: rest, st =>
      match fetch batch with
      | .success d =>
          match parse_quotes_response d with
          | .error e => .error (st, e)
          | .ok qs =>
              quotesLoop fetch rest
                { st with processed := st.processed + qs.length,
                          quotes := st.quotes ++ qs }
      | .failure _ =>
          quotesLoop fetch rest { st with failed := st.failed + batch.length }

/-- Embedding of StockQuotesExtractor.extract with the configured
batch_size (pipeline_config.batch_size, default 100): after the loop,
total_items is set to the number of accumulated quotes and the job is
Completed; an exception escaping the loop yields a Failed job with
total_items unset. -/
def extractQuotes (fetch : List String → APIResp) (batchSize : ℕ)
    (symbols : List String) : PipelineJob :=
  match quotesLoop fetch (chunkSymbols batchSize symbols) {} with
  | .ok st =>
      { status := .completed, total_items := some st.quotes.length,
        processed_items := st.processed, failed_items := st.failed }
  | .error (st, e) =>
      { status := .failed, total_items := none,
        processed_items := st.processed, failed_items := st.failed,
        error_message := some e }

/-! ## Transform pipeline (data_pipeline/transformers.py) -/

/-- Records handled by the transform stages: plain Python dicts in
insertion order. -/
abbrev PyRecord := List (String × JValue)

/-- Numeric field list of DataCleaner._clean_quote_record. -/
def numericFields : List String :=
  ["price", "previous_close", "open", "high", "low",
   "volume", "market_cap", "pe_ratio", "dividend_yield",
   "change", "change_percent"]

/-- Embedding of DataCleaner._parse_numeric: None stays None, ints and
floats (and bools, which are ints in Python) pass through float(), strings
are parsed after removing commas, dollar signs and percent signs and
stripping whitespace, and every other type or parse failure yields None. -/
def parse_numeric : JValue → Option ℚ
  | .null => none
  | .num q => some q
  | .bool b => some (if b then 1 else 0)
  | .str s =>
      pyFloatOfString
        ⟨trimChars (s.data.filter (fun c => c ≠ ',' && c ≠ '$' && c ≠ '%'))⟩
  | .arr _ => none
  | .obj _ => none

/-- In-place update of the value stored at a key, mirroring the assignment
d[k] = f(d[k]) guarded by k in d: entries with other keys are untouched and
a record without the key is unchanged. -/
def setField (k : String) (f : JValue → JValue) (r : PyRecord) : PyRecord :=
  r.map (fun kv => if kv.1 = k then (kv.1, f kv.2) else kv)

/-- Result of the numeric coercion as stored back into the record: a parse
failure stores Python None. -/
def numClean (v : JValue) : JValue :=
  match parse_numeric v with
  | some q => .num q
  | none => .null

/-- Model of Python str(x) for the values that reach the symbol cleaning
line; on a string it is the identity, which is the only case the proofs
below depend on. -/
def pyStr : JValue → String
  | .str s => s
  | .null => "None"
  | .bool b => if b then "True" else "False"
  | .num q => toString q
  | .arr _ => ""
  | .obj _ => ""

/-- Embedding of DataCleaner._clean_quote_record: drop None-valued fields,
strip and uppercase the symbol, coerce each numeric field with
_parse_numeric, and default a missing currency to USD. The record is
returned unconditionally: no statement in the body raises, so the except
branch returning None is dead, and the result always carries at least the
currency key. -/
def clean_quote_record (r : PyRecord) : PyRecord :=
  let cleaned : PyRecord := r.filter (fun kv => !kv.2.isNull)
  let cleaned := setField "symbol" (fun v => .str (stripUpper (pyStr v))) cleaned
  let cleaned := numericFields.foldl (fun c f => setField f numClean c) cleaned
  if jhasKey "currency" cleaned then cleaned
  else cleaned ++ [("currency", .str "USD")]

/-- Embedding of DataCleaner.clean_quote_data: clean each record and keep
the truthy results. A cleaned record always contains the currency key, so
it is never the empty (falsy) dict and every record is kept. -/
def clean_quote_data (quotes : List PyRecord) : List PyRecord :=
  (quotes.map clean_quote_record).filter (fun r => !r.isEmpty)

/-- Data quality status (data_pipeline.models.DataQualityStatus). -/
inductive DataQualityStatus where
  | valid : DataQualityStatus
  | warning : DataQualityStatus
  | error : DataQualityStatus
  | unknown : DataQualityStatus
deriving DecidableEq, Repr

/-- Embedding of DataValidator._get_required_fields. -/
def get_required_fields (data_type : String) : List String :=
  if data_type = "market_tickers" then ["symbol", "name"]
  else if data_type = "stock_quotes" then ["symbol", "price"]
  else if data_type = "stock_history" then ["symbol", "date", "close"]
  else if data_type = "market_screeners" then ["symbol", "screener_type"]
  else if data_type = "stock_news" then ["symbol", "title", "url"]
  else ["symbol"]

/-- Count of missing required fields accumulated by the loop in
_check_completeness: one entry per record and per required field that is
absent from the record or bound to None. -/
def missingFieldCount (data : List PyRecord) (fields : List String) : ℕ :=
  (data.map (fun record =>
    (fields.filter (fun f =>
      match jlookup f record with
      | none => true
      | some v => v.isNull)).length)).sum

/-- Embedding of the status computation of DataValidator._check_completeness:
an empty batch reports Error (message "No data found"); otherwise the
missing percentage missing / (record count * required count) * 100 over
record-and-required-field pairs decides the status with the strict
thresholds 20 and 10. The two comparisons are written with the positive
denominator cleared so that the arithmetic stays in ℕ; the division form is
proven equivalent in the theorem on completeness thresholds below. -/
def check_completeness (data : List PyRecord) (data_type : String) : DataQualityStatus :=
  if data.isEmpty then .error
  else
    let required := get_required_fields data_type
    let missing := missingFieldCount data required
    if 20 * (data.length * required.length) < 100 * missing then .error
    else if 10 * (data.length * required.length) < 100 * missing then .warning
    else .valid

/-! ## Job tracker cleanup (data_pipeline/scheduler.py) -/

/-- Job record as stored in PipelineScheduler.jobs, with the creation
timestamp (seconds) used by cleanup_old_jobs. -/
structure StoredJob where
  status : PipelineStatus
  created_at : ℚ
deriving DecidableEq, Repr

/-- Deletion of one key from the jobs dict (del self.jobs[job_id]). -/
def delJob (jobs : List (String × StoredJob)) (jobId : String) : List (String × StoredJob) :=
  jobs.filter (fun kv => kv.1 ≠ jobId)

/-- Embedding of PipelineScheduler.cleanup_old_jobs: collect the ids of all
jobs created before the cutoff (now minus days of 86400 seconds) and delete
them from the registry, with no condition on job status. -/
def cleanup_old_jobs (jobs : List (String × StoredJob)) (days : ℕ) (now : ℚ) :
    List (String × StoredJob) :=
  let cutoff : ℚ := now - (days : ℚ) * 86400
  let oldJobs := (jobs.filter (fun kv => kv.2.created_at < cutoff)).map (·.1)
  oldJobs.foldl delJob jobs

/-! ## Monitoring (data_pipeline/monitoring.py) -/

/-- Alert as created by PipelineMonitor._create_alert (fields used by the
claims; the linked job and source are omitted from the model as the data
quality path passes data_source only). -/
structure Alert where
  alert_id : String
  alert_type : String
  severity : String
  title : String
  message : String
deriving DecidableEq, Repr

/-- Embedding of PipelineMonitor._create_alert: the alert id is the alert
type joined with the current integer second int(datetime.utcnow().
timestamp()), passed here as nowSec. -/
def create_alert (nowSec : ℤ) (alertType severity title message : String) : Alert :=
  { alert_id := alertType ++ "_" ++ toString nowSec,
    alert_type := alertType, severity := severity,
    title := title, message := message }

/-- Quality check as consumed by monitor_data_quality. -/
structure QualityCheck where
  data_source : String
  check_type : String
  status : DataQualityStatus
  message : String
deriving DecidableEq, Repr

/-- Insertion into the monitor alert dict self.alerts[alert.alert_id] =
alert: an existing binding for the key is overwritten in place, a new key
is appended. -/
def storeAlert (store : List (String × Alert)) (a : Alert) : List (String × Alert) :=
  if store.any (fun kv => kv.1 = a.alert_id) then
    store.map (fun kv => if kv.1 = a.alert_id then (kv.1, a) else kv)
  else store ++ [(a.alert_id, a)]

/-- Alerts generated for one quality check inside monitor_data_quality. -/
def alertsForCheck (nowSec : ℤ) (check : QualityCheck) : List Alert :=
  match check.status with
  | .error =>
      [create_alert nowSec "error" "high"
        ("Data Quality Error: " ++ check.data_source)
        (check.check_type ++ ": " ++ check.message)]
  | .warning =>
      [create_alert nowSec "warning" "medium"
        ("Data Quality Warning: " ++ check.data_source)
        (check.check_type ++ ": " ++ check.message)]
  | _ => []

/-- Embedding of PipelineMonitor._calculate_average_quality_score. -/
def average_quality_score (checks : List QualityCheck) : ℚ :=
  if checks.isEmpty then 1
  else
    ((checks.map (fun c =>
      match c.status with
      | .valid => (1 : ℚ)
      | .warning => 7 / 10
      | .error => 3 / 10
      | .unknown => 1 / 2)).sum) / (checks.length : ℚ)

/-- Embedding of PipelineMonitor.monitor_data_quality, with every
_create_alert call inside one invocation sharing the wall-clock second
nowSec: per-check alerts for non-valid checks, plus a low-score warning
when the average quality score drops below the 0.8 threshold; the returned
list carries every generated alert while the store receives them in order
with overwrite-on-equal-id semantics. -/
def monitor_data_quality (nowSec : ℤ) (checks : List QualityCheck)
    (store : List (String × Alert)) : List Alert × List (String × Alert) :=
  let alerts := checks.flatMap (alertsForCheck nowSec)
  let alerts :=
    if average_quality_score checks < 8 / 10 then
      alerts ++ [create_alert nowSec "warning" "medium"
        "Low Data Quality Score" "Average data quality score is low"]
    else alerts
  (alerts, alerts.foldl storeAlert store)

/-- Test that a body element is a dict whose symbol key holds exactly the
string s, the origin of a parsed record identifying key. -/
def symbolMatches (x : JValue) (s : String) : Bool :=
  match x with
  | .obj e =>
      match jlookup "symbol" e with
      | some (.str s2) => s2 = s
      | _ => false
  | _ => false

/-- Decidable guard expressing that the quotes sub-call loop finishes:
every successful batch response parses without a top-level exception. -/
def quotesRunClean (fetch : List String → APIResp) (batches : List (List String)) : Bool :=
  batches.all fun batch =>
    match fetch batch with
    | .failure _ => true
    | .success d => (parse_quotes_response d).isOk

/-- Test for an unsuccessful APIResponse. -/
def isFailure : APIResp → Bool
  | .failure _ => true
  | .success _ => false

/-- Number of body records a successful sub-call for one symbol
contributes to processed_items (zero for a failed call). -/
def successBodyLen (fetch : String → APIResp) (sym : String) : ℕ :=
  match fetch sym with
  | .failure _ => 0
  | .success d =>
      match getBodyList d with
      | .ok body => body.length
      | .error _ => 0

/-- Client behaviour of the C1 scenario: three symbols, one HTTP call
each; the MSFT call fails with HTTP 500 after exhausting retries, the two
other calls succeed with one news record each. -/
def newsScenarioFetch (sym : String) : APIResp :=
  if sym = "MSFT" then .failure "HTTP 500: Internal Server Error"
  else .success (.obj [("body", .arr
    [.obj [("title", .str "headline"), ("url", .str "https")]])])

/-- Shape of a record on which another cleaning pass is the identity: no
null values, every numeric field already a number, every symbol value a
fixed point of the strip-and-uppercase cleaning, and the currency key
present. -/
def CleanStable (r : PyRecord) : Prop :=
  (∀ kv ∈ r, kv.2.isNull = false) ∧
  (∀ kv ∈ r, kv.1 ∈ numericFields → ∃ q, kv.2 = JValue.num q) ∧
  (∀ kv ∈ r, kv.1 = "symbol" → ∃ s, kv.2 = JValue.str s ∧ stripUpper s = s) ∧
  jhasKey "currency" r = true

/-- Combined per-entry effect of the symbol cleaning followed by the
numeric-field coercions of _clean_quote_record. -/
def cleanEntry (kv : String × JValue) : String × JValue :=
  let kv1 := if kv.1 = "symbol" then (kv.1, JValue.str (stripUpper (pyStr kv.2))) else kv
  if kv1.1 ∈ numericFields then (kv1.1, numClean kv1.2) else kv1

/-- Shape every record has after one cleaning pass: numeric fields hold a
number or None (a failed coercion), and symbol fields hold a fixed point
of the strip-and-uppercase cleaning. -/
def CleanOnce (c : PyRecord) : Prop :=
  (∀ kv ∈ c, kv.1 ∈ numericFields → (∃ q, kv.2 = JValue.num q) ∨ kv.2 = JValue.null) ∧
  (∀ kv ∈ c, kv.1 = "symbol" → ∃ s, kv.2 = JValue.str s ∧ stripUpper s = s)

/-! ## Theorems -/

/-- Deleting a list of ids from the registry filters out every entry whose
key occurs in the list. -/
theorem foldl_delJob_eq_filter (ids : List String) (jobs : List (String × StoredJob)) :
    ids.foldl delJob jobs = jobs.filter (fun kv => !ids.contains kv.1) := by
  induction ids generalizing jobs with
  | nil => simp
  | cons i ids ih =>
      rw [List.foldl_cons, ih]
      simp only [delJob, List.filter_filter]
      apply List.filter_congr
      intro kv _
      by_cases hkv : kv.1 = i <;> simp [hkv]

/-- C3 (code_bug evidence): evaluation of the retry loop of
BaseAPIClient._make_request. An HTTP 500 response (and likewise a transport
error) is re-raised as APIError after exactly one attempt because the
except block converts the retryable RequestException into APIError, which
the tenacity predicate rejects, even though the decorator itself registers
RequestException as retryable (last conjunct). Only RateLimitError (HTTP
429) is retried until stop_after_attempt(3) exhausts the budget; HTTP 401
raises AuthenticationError on the first attempt with no retry. -/
theorem c3_retry_policy_evaluation :
    make_request (fun _ => .status 500) 3 = (.raised .apiError, 1) ∧
    make_request (fun _ => .netError) 3 = (.raised .apiError, 1) ∧
    make_request (fun _ => .status 429) 3 = (.retriesExhausted .rateLimitError, 3) ∧
    make_request (fun _ => .status 401) 3 = (.raised .authenticationError, 1) ∧
    make_request (fun _ => .status 200) 3 = (.success 200, 1) ∧
    tenacityRetries .requestException = true := by
  decide

/-- C5 (counterexample): a payload with no body key, a null body, and a
genuine empty body list all produce the identical successful empty result,
so the parser does not surface a failure outcome distinguishable from zero
results on an unparseable top-level shape. -/
theorem c5_missing_body_counterexample :
    parse_tickers_response (.obj []) = .ok [] ∧
    parse_quotes_response (.obj []) = .ok [] ∧
    parse_tickers_response (.obj [("body", .null)]) = .ok [] ∧
    parse_tickers_response (.obj [("body", .arr [])]) = .ok [] :=
  ⟨rfl, rfl, rfl, rfl⟩

/-- C5 (amended): for every dict payload whose body key is absent or not
bound to a list, both parsers return the successful empty list, which is
indistinguishable from a genuine zero-result payload; no failure outcome is
surfaced for such shapes. -/
theorem c5_missing_body_amended (kvs : List (String × JValue))
    (h : ∀ xs, jlookup "body" kvs ≠ some (.arr xs)) :
    parse_tickers_response (.obj kvs) = .ok [] ∧
    parse_quotes_response (.obj kvs) = .ok [] := by
  constructor
  · rcases hb : jlookup "body" kvs with _ | v
    · simp [parse_tickers_response, hb]
    · cases v with
      | arr xs => exact absurd hb (h xs)
      | null => simp [parse_tickers_response, hb]
      | bool b => simp [parse_tickers_response, hb]
      | num q => simp [parse_tickers_response, hb]
      | str s => simp [parse_tickers_response, hb]
      | obj o => simp [parse_tickers_response, hb]
  · rcases hb : jlookup "body" kvs with _ | v
    · simp [parse_quotes_response, hb]
    · cases v with
      | arr xs => exact absurd hb (h xs)
      | null => simp [parse_quotes_response, hb]
      | bool b => simp [parse_quotes_response, hb]
      | num q => simp [parse_quotes_response, hb]
      | str s => simp [parse_quotes_response, hb]
      | obj o => simp [parse_quotes_response, hb]

/-- C5 (witness): the amended theorem applied to a concrete payload that
only carries a count field and no body. -/
theorem c5_missing_body_amended_witness :
    (∀ xs, jlookup "body" [("count", JValue.num 0)] ≠ some (.arr xs)) ∧
    (parse_tickers_response (.obj [("count", JValue.num 0)]) = .ok [] ∧
     parse_quotes_response (.obj [("count", JValue.num 0)]) = .ok []) :=
  ⟨fun _ h => Option.noConfusion h,
   c5_missing_body_amended [("count", JValue.num 0)] (fun _ h => Option.noConfusion h)⟩

/-- C7 (counterexample): with data type stock_quotes the required fields
are symbol and price, so a batch of four records in which exactly one
record (25 percent of the records) misses the required price field has a
missing-pair percentage of 12.5 and reports Warning, not the Error the
claim asserts for 25 percent of records. -/
theorem c7_records_ratio_counterexample :
    check_completeness
      [[("symbol", JValue.str "A"), ("price", JValue.num 1)],
       [("symbol", JValue.str "B"), ("price", JValue.num 2)],
       [("symbol", JValue.str "C"), ("price", JValue.num 3)],
       [("symbol", JValue.str "D")]] "stock_quotes" = .warning := by
  decide

/-- Every required-field set of _get_required_fields is nonempty. -/
theorem req_fields_len_pos (dt : String) : 0 < (get_required_fields dt).length := by
  unfold get_required_fields
  split_ifs <;> simp

/-- Clearing the positive denominator of a percentage comparison: strict
form. -/
theorem percent_lt_iff (n k c m : ℕ) (hn : 0 < n) (hk : 0 < k) :
    (((c : ℕ) : ℚ) < (m : ℚ) / ((n : ℚ) * (k : ℚ)) * 100) ↔ c * (n * k) < 100 * m := by
  have hpos : (0 : ℚ) < (n : ℚ) * (k : ℚ) := by exact_mod_cast Nat.mul_pos hn hk
  rw [div_mul_eq_mul_div, lt_div_iff₀ hpos,
      show ((m : ℚ) * 100) = ((100 * m : ℕ) : ℚ) by push_cast; ring,
      show (((c : ℕ) : ℚ) * ((n : ℚ) * (k : ℚ))) = ((c * (n * k) : ℕ) : ℚ) by push_cast; ring]
  exact Nat.cast_lt

/-- Clearing the positive denominator of a percentage comparison: non-strict
form. -/
theorem percent_le_iff (n k c m : ℕ) (hn : 0 < n) (hk : 0 < k) :
    ((m : ℚ) / ((n : ℚ) * (k : ℚ)) * 100 ≤ ((c : ℕ) : ℚ)) ↔ 100 * m ≤ c * (n * k) := by
  have hpos : (0 : ℚ) < (n : ℚ) * (k : ℚ) := by exact_mod_cast Nat.mul_pos hn hk
  rw [div_mul_eq_mul_div, div_le_iff₀ hpos,
      show ((m : ℚ) * 100) = ((100 * m : ℕ) : ℚ) by push_cast; ring,
      show (((c : ℕ) : ℚ) * ((n : ℚ) * (k : ℚ))) = ((c * (n * k) : ℕ) : ℚ) by push_cast; ring]
  exact Nat.cast_le

/-- C7 (amended): on a nonempty batch the completeness status is decided by
the percentage of missing record-and-required-field pairs, Error strictly
above 20, Warning strictly above 10, Valid otherwise; batches with exactly
25, 15 and 5 percent of pairs missing report Error, Warning and Valid
respectively (shown for the single-field default required set, where pair
percentage and record percentage coincide). -/
theorem c7_completeness_thresholds_amended (data : List PyRecord) (dt : String)
    (h : data ≠ []) :
    ((check_completeness data dt = .error ↔
        (((20 : ℕ) : ℚ)) < (missingFieldCount data (get_required_fields dt) : ℚ) /
          ((data.length : ℚ) * ((get_required_fields dt).length : ℚ)) * 100) ∧
     (check_completeness data dt = .warning ↔
        ((((10 : ℕ) : ℚ)) < (missingFieldCount data (get_required_fields dt) : ℚ) /
          ((data.length : ℚ) * ((get_required_fields dt).length : ℚ)) * 100 ∧
         (missingFieldCount data (get_required_fields dt) : ℚ) /
          ((data.length : ℚ) * ((get_required_fields dt).length : ℚ)) * 100 ≤ (((20 : ℕ) : ℚ)))) ∧
     (check_completeness data dt = .valid ↔
        (missingFieldCount data (get_required_fields dt) : ℚ) /
          ((data.length : ℚ) * ((get_required_fields dt).length : ℚ)) * 100 ≤ (((10 : ℕ) : ℚ)))) ∧
    check_completeness
      (List.replicate 15 [("symbol", JValue.str "A")] ++ List.replicate 5 []) "other" = .error ∧
    check_completeness
      (List.replicate 17 [("symbol", JValue.str "A")] ++ List.replicate 3 []) "other" = .warning ∧
    check_completeness
      (List.replicate 19 [("symbol", JValue.str "A")] ++ List.replicate 1 []) "other" = .valid := by
  refine ⟨?_, by decide, by decide, by decide⟩
  have hn : 0 < data.length := List.length_pos.mpr h
  have hk : 0 < (get_required_fields dt).length := req_fields_len_pos dt
  have hne : data.isEmpty = false := by
    cases data with
    | nil => exact absurd rfl h
    | cons a l => rfl
  rw [percent_lt_iff data.length (get_required_fields dt).length 20
        (missingFieldCount data (get_required_fields dt)) hn hk,
      percent_lt_iff data.length (get_required_fields dt).length 10
        (missingFieldCount data (get_required_fields dt)) hn hk,
      percent_le_iff data.length (get_required_fields dt).length 20
        (missingFieldCount data (get_required_fields dt)) hn hk,
      percent_le_iff data.length (get_required_fields dt).length 10
        (missingFieldCount data (get_required_fields dt)) hn hk]
  simp only [check_completeness, hne, Bool.false_eq_true, if_false]
  split_ifs with h1 h2
  · exact ⟨iff_of_true rfl h1,
      iff_of_false (by decide) (by rintro ⟨-, hle⟩; linarith),
      iff_of_false (by decide) (by intro hle; linarith)⟩
  · exact ⟨iff_of_false (by decide) h1,
      iff_of_true rfl ⟨h2, not_lt.mp h1⟩,
      iff_of_false (by decide) (by intro hle; linarith)⟩
  · exact ⟨iff_of_false (by decide) h1,
      iff_of_false (by decide) (by rintro ⟨h10, -⟩; exact h2 h10),
      iff_of_true rfl (not_lt.mp h2)⟩

/-- C7 (witness): the amended theorem applied to a concrete nonempty batch
with no missing required field. -/
theorem c7_completeness_thresholds_amended_witness :
    ([[("symbol", JValue.str "A"), ("price", JValue.num 1)]] : List PyRecord) ≠ [] ∧
    check_completeness [[("symbol", JValue.str "A"), ("price", JValue.num 1)]]
      "stock_quotes" = .valid := by
  refine ⟨by simp, ?_⟩
  have hmain := (c7_completeness_thresholds_amended
    [[("symbol", JValue.str "A"), ("price", JValue.num 1)]] "stock_quotes" (by simp)).1.2.2
  refine hmain.mpr ?_
  have hm : missingFieldCount [[("symbol", JValue.str "A"), ("price", JValue.num 1)]]
      (get_required_fields "stock_quotes") = 0 := by decide
  rw [hm]
  norm_num

/-- C9 (counterexample): cleanup_old_jobs removes a Running job whose
creation time is past the cutoff, although the claim states that only
completed and failed jobs are removed. -/
theorem c9_running_job_removed_counterexample :
    cleanup_old_jobs
      [("job1", { status := PipelineStatus.running, created_at := 0 })] 7 (8 * 86400) = [] ∧
    (PipelineStatus.running = PipelineStatus.completed ∨
     PipelineStatus.running = PipelineStatus.failed) = False := by
  constructor
  · have hcut : (0 : ℚ) < 8 * 86400 - 7 * 86400 := by norm_num
    simp [cleanup_old_jobs, delJob, hcut]
  · simp

/-- C9 (amended): with unique job ids (dict semantics), cleanup_old_jobs
removes exactly the jobs created before the cutoff now minus days times
86400 seconds, with no regard to their status: Pending and Running jobs
past the cutoff are removed as well. -/
theorem c9_cleanup_by_age_amended (jobs : List (String × StoredJob)) (days : ℕ) (now : ℚ)
    (h : (jobs.map Prod.fst).Nodup) :
    cleanup_old_jobs jobs days now =
      jobs.filter (fun kv => !decide (kv.2.created_at < now - (days : ℚ) * 86400)) := by
  unfold cleanup_old_jobs
  rw [foldl_delJob_eq_filter]
  apply List.filter_congr
  intro kv hkv
  have key :
      ((jobs.filter (fun kv => decide (kv.2.created_at < now - (days : ℚ) * 86400))).map
        Prod.fst).contains kv.1 = decide (kv.2.created_at < now - (days : ℚ) * 86400) := by
    by_cases hlt : kv.2.created_at < now - (days : ℚ) * 86400
    · have hmem : kv.1 ∈ (jobs.filter
          (fun kv => decide (kv.2.created_at < now - (days : ℚ) * 86400))).map Prod.fst :=
        List.mem_map_of_mem _ (List.mem_filter.mpr ⟨hkv, by simpa using hlt⟩)
      simp only [hlt, decide_True, List.contains, List.elem_eq_mem, hmem]
    · simp only [hlt, decide_False]
      rw [Bool.eq_false_iff]
      intro hcon
      have hmem : kv.1 ∈ (jobs.filter
          (fun kv => decide (kv.2.created_at < now - (days : ℚ) * 86400))).map Prod.fst := by
        simpa [List.contains, List.elem_eq_mem] using hcon
      obtain ⟨kv', hkv', hfst⟩ := List.mem_map.mp hmem
      obtain ⟨hkv'j, hP⟩ := List.mem_filter.mp hkv'
      have hinj := List.inj_on_of_nodup_map h hkv'j hkv hfst
      rw [hinj] at hP
      exact hlt (by simpa using hP)
  rw [key]

/-- C9 (witness): the amended theorem applied to a registry holding one old
completed job and one recent running job; only the old one is removed. -/
theorem c9_cleanup_by_age_amended_witness :
    (([("a", ({ status := PipelineStatus.completed, created_at := 0 } : StoredJob)),
       ("b", ({ status := PipelineStatus.running, created_at := 9 * 86400 } : StoredJob))].map
        Prod.fst).Nodup) ∧
    cleanup_old_jobs
      [("a", { status := PipelineStatus.completed, created_at := 0 }),
       ("b", { status := PipelineStatus.running, created_at := 9 * 86400 })] 7 (10 * 86400) =
      [("b", { status := PipelineStatus.running, created_at := 9 * 86400 })] := by
  refine ⟨by decide, ?_⟩
  rw [c9_cleanup_by_age_amended _ 7 (10 * 86400) (by decide)]
  have ha : (0 : ℚ) < 10 * 86400 - 7 * 86400 := by norm_num
  have hb : ¬((9 * 86400 : ℚ) < 10 * 86400 - 7 * 86400) := by norm_num
  simp [ha, hb]

/-- Elimination of a successful Except bind into its two stages. -/
theorem bind_ok_elim {α β : Type} {x : Except String α} {f : α → Except String β} {b : β}
    (h : x.bind f = .ok b) : ∃ a, x = .ok a ∧ f a = .ok b := by
  cases x with
  | ok a => exact ⟨a, rfl, h⟩
  | error e => exact Except.noConfusion h

/-- A successfully parsed Stock carries exactly the string bound to the
symbol key of its source element. -/
theorem parse_ticker_data_symbol {kvs : List (String × JValue)} {s : Stock}
    (h : parse_ticker_data kvs = .ok s) :
    jlookup "symbol" kvs = some (.str s.symbol) := by
  unfold parse_ticker_data at h
  obtain ⟨mc, hmc, h⟩ := bind_ok_elim h
  obtain ⟨sym, hsym, h⟩ := bind_ok_elim h
  obtain ⟨nm, hnm, h⟩ := bind_ok_elim h
  obtain ⟨ex, hex, h⟩ := bind_ok_elim h
  obtain ⟨se, hse, h⟩ := bind_ok_elim h
  obtain ⟨iu, hiu, h⟩ := bind_ok_elim h
  obtain ⟨cu, hcu, h⟩ := bind_ok_elim h
  obtain ⟨co, hco, h⟩ := bind_ok_elim h
  obtain ⟨we, hwe, h⟩ := bind_ok_elim h
  obtain ⟨de, hde, h⟩ := bind_ok_elim h
  cases h
  unfold getReqStr at hsym
  rcases hj : jlookup "symbol" kvs with _ | v
  · rw [hj] at hsym
    exact Except.noConfusion hsym
  · rw [hj] at hsym
    cases v with
    | str t =>
        injection hsym with h2
        subst h2
        rfl
    | null => exact Except.noConfusion hsym
    | bool b => exact Except.noConfusion hsym
    | num q => exact Except.noConfusion hsym
    | arr a => exact Except.noConfusion hsym
    | obj o => exact Except.noConfusion hsym

/-- A successfully parsed StockQuote carries exactly the string bound to
the symbol key of its source element. -/
theorem parse_quote_data_symbol {kvs : List (String × JValue)} {s : StockQuote}
    (h : parse_quote_data kvs = .ok s) :
    jlookup "symbol" kvs = some (.str s.symbol) := by
  unfold parse_quote_data at h
  obtain ⟨sym, hsym, h⟩ := bind_ok_elim h
  obtain ⟨nm, hnm, h⟩ := bind_ok_elim h
  obtain ⟨pr, hpr, h⟩ := bind_ok_elim h
  obtain ⟨pc, hpc, h⟩ := bind_ok_elim h
  obtain ⟨op, hop, h⟩ := bind_ok_elim h
  obtain ⟨hi, hhi, h⟩ := bind_ok_elim h
  obtain ⟨lo, hlo, h⟩ := bind_ok_elim h
  obtain ⟨vo, hvo, h⟩ := bind_ok_elim h
  obtain ⟨ma, hma, h⟩ := bind_ok_elim h
  obtain ⟨pe, hpe, h⟩ := bind_ok_elim h
  obtain ⟨dy, hdy, h⟩ := bind_ok_elim h
  obtain ⟨ch, hch, h⟩ := bind_ok_elim h
  obtain ⟨cp, hcp, h⟩ := bind_ok_elim h
  obtain ⟨cy, hcy, h⟩ := bind_ok_elim h
  obtain ⟨exg, hexg, h⟩ := bind_ok_elim h
  obtain ⟨qt, hqt, h⟩ := bind_ok_elim h
  cases h
  unfold getReqStr at hsym
  rcases hj : jlookup "symbol" kvs with _ | v
  · rw [hj] at hsym
    exact Except.noConfusion hsym
  · rw [hj] at hsym
    cases v with
    | str t =>
        injection hsym with h2
        subst h2
        rfl
    | null => exact Except.noConfusion hsym
    | bool b => exact Except.noConfusion hsym
    | num q => exact Except.noConfusion hsym
    | arr a => exact Except.noConfusion hsym
    | obj o => exact Except.noConfusion hsym

/-- Specification of the ticker element loop: at most one record per
element, each record traceable to an element whose symbol key holds its
symbol string. -/
theorem parseTickerElems_spec {xs : List JValue} {res : List Stock}
    (h : parseTickerElems xs = .ok res) :
    res.length ≤ xs.length ∧
    ∀ st ∈ res, ∃ ekvs, JValue.obj ekvs ∈ xs ∧
      jlookup "symbol" ekvs = some (.str st.symbol) := by
  induction xs generalizing res with
  | nil =>
      simp only [parseTickerElems] at h
      injection h with h2
      subst h2
      simp
  | cons x rest ih =>
      cases x with
      | obj kvs =>
          rcases hp : parse_ticker_data kvs with e | st
          · simp only [parseTickerElems, hp] at h
            obtain ⟨hlen, htrace⟩ := ih h
            refine ⟨hlen.trans (by simp), ?_⟩
            intro st hst
            obtain ⟨ekvs, hmem, hlook⟩ := htrace st hst
            exact ⟨ekvs, List.mem_cons_of_mem _ hmem, hlook⟩
          · simp only [parseTickerElems, hp] at h
            rcases hrest : parseTickerElems rest with e2 | l
            · rw [hrest] at h
              simp [Except.map] at h
            · rw [hrest] at h
              simp only [Except.map] at h
              injection h with h2
              subst h2
              obtain ⟨hlen, htrace⟩ := ih hrest
              refine ⟨by simpa using Nat.succ_le_succ hlen, ?_⟩
              intro s2 hs2
              rcases List.mem_cons.mp hs2 with rfl | hs2
              · exact ⟨kvs, List.mem_cons_self _ _, parse_ticker_data_symbol hp⟩
              · obtain ⟨ekvs, hmem, hlook⟩ := htrace s2 hs2
                exact ⟨ekvs, List.mem_cons_of_mem _ hmem, hlook⟩
      | null => exact Except.noConfusion h
      | bool b => exact Except.noConfusion h
      | num q => exact Except.noConfusion h
      | str s2 => exact Except.noConfusion h
      | arr a => exact Except.noConfusion h

/-- Specification of the quote element loop, as for tickers. -/
theorem parseQuoteElems_spec {xs : List JValue} {res : List StockQuote}
    (h : parseQuoteElems xs = .ok res) :
    res.length ≤ xs.length ∧
    ∀ q ∈ res, ∃ ekvs, JValue.obj ekvs ∈ xs ∧
      jlookup "symbol" ekvs = some (.str q.symbol) := by
  induction xs generalizing res with
  | nil =>
      simp only [parseQuoteElems] at h
      injection h with h2
      subst h2
      simp
  | cons x rest ih =>
      cases x with
      | obj kvs =>
          rcases hp : parse_quote_data kvs with e | q
          · simp only [parseQuoteElems, hp] at h
            obtain ⟨hlen, htrace⟩ := ih h
            refine ⟨hlen.trans (by simp), ?_⟩
            intro q2 hq2
            obtain ⟨ekvs, hmem, hlook⟩ := htrace q2 hq2
            exact ⟨ekvs, List.mem_cons_of_mem _ hmem, hlook⟩
          · simp only [parseQuoteElems, hp] at h
            rcases hrest : parseQuoteElems rest with e2 | l
            · rw [hrest] at h
              simp [Except.map] at h
            · rw [hrest] at h
              simp only [Except.map] at h
              injection h with h2
              subst h2
              obtain ⟨hlen, htrace⟩ := ih hrest
              refine ⟨by simpa using Nat.succ_le_succ hlen, ?_⟩
              intro q2 hq2
              rcases List.mem_cons.mp hq2 with rfl | hq2
              · exact ⟨kvs, List.mem_cons_self _ _, parse_quote_data_symbol hp⟩
              · obtain ⟨ekvs, hmem, hlook⟩ := htrace q2 hq2
                exact ⟨ekvs, List.mem_cons_of_mem _ hmem, hlook⟩
      | null => exact Except.noConfusion h
      | bool b => exact Except.noConfusion h
      | num q2 => exact Except.noConfusion h
      | str s2 => exact Except.noConfusion h
      | arr a => exact Except.noConfusion h

/-- C4 (counterexample): an element whose symbol is the empty string
parses successfully, so the returned record count stays within the bound
but the identifying key of a returned record is empty, refuting the
non-emptiness part of the claim. -/
theorem c4_empty_symbol_counterexample :
    parse_tickers_response (.obj [("body", .arr [.obj [("symbol", .str "")]])]) =
      .ok [{ symbol := "" }] ∧ ("" : String).length = 0 :=
  ⟨rfl, rfl⟩

/-- C4 (amended): for every payload whose body is a list, each parser
returns at most one record per body element, and every returned record has
its symbol field present and equal to the string bound to the symbol key
of some body element (elements without a string-valued symbol are
dropped); the symbol string may be empty, as non-emptiness is never
checked. -/
theorem c4_parser_bounds_amended (kvs : List (String × JValue)) (xs : List JValue)
    (resT : List Stock) (resQ : List StockQuote)
    (hbody : jlookup "body" kvs = some (.arr xs))
    (hT : parse_tickers_response (.obj kvs) = .ok resT)
    (hQ : parse_quotes_response (.obj kvs) = .ok resQ) :
    resT.length ≤ xs.length ∧ resQ.length ≤ xs.length ∧
    resT.all (fun st => xs.any (fun x => symbolMatches x st.symbol)) = true ∧
    resQ.all (fun q => xs.any (fun x => symbolMatches x q.symbol)) = true := by
  simp only [parse_tickers_response, hbody] at hT
  simp only [parse_quotes_response, hbody] at hQ
  obtain ⟨hTlen, hTtrace⟩ := parseTickerElems_spec hT
  obtain ⟨hQlen, hQtrace⟩ := parseQuoteElems_spec hQ
  refine ⟨hTlen, hQlen, ?_, ?_⟩
  · rw [List.all_eq_true]
    intro st hst
    obtain ⟨ekvs, hmem, hlook⟩ := hTtrace st hst
    rw [List.any_eq_true]
    exact ⟨JValue.obj ekvs, hmem, by simp [symbolMatches, hlook]⟩
  · rw [List.all_eq_true]
    intro q hq
    obtain ⟨ekvs, hmem, hlook⟩ := hQtrace q hq
    rw [List.any_eq_true]
    exact ⟨JValue.obj ekvs, hmem, by simp [symbolMatches, hlook]⟩

/-- C4 (witness): the amended theorem applied to a one-element body whose
record parses for both parsers. -/
theorem c4_parser_bounds_amended_witness :
    jlookup "body" [("body", JValue.arr [JValue.obj [("symbol", JValue.str "AAPL")]])] =
      some (JValue.arr [JValue.obj [("symbol", JValue.str "AAPL")]]) ∧
    (([({ symbol := "AAPL" } : Stock)]).length ≤
        ([JValue.obj [("symbol", JValue.str "AAPL")]]).length ∧
     ([({ symbol := "AAPL" } : StockQuote)]).length ≤
        ([JValue.obj [("symbol", JValue.str "AAPL")]]).length ∧
     ([({ symbol := "AAPL" } : Stock)]).all
        (fun st => ([JValue.obj [("symbol", JValue.str "AAPL")]]).any
          (fun x => symbolMatches x st.symbol)) = true ∧
     ([({ symbol := "AAPL" } : StockQuote)]).all
        (fun q => ([JValue.obj [("symbol", JValue.str "AAPL")]]).any
          (fun x => symbolMatches x q.symbol)) = true) :=
  ⟨rfl, c4_parser_bounds_amended
    [("body", JValue.arr [JValue.obj [("symbol", JValue.str "AAPL")]])]
    [JValue.obj [("symbol", JValue.str "AAPL")]]
    [{ symbol := "AAPL" }] [{ symbol := "AAPL" }] rfl rfl rfl⟩

/-- A body list whose elements all build valid records makes the
sequential record construction succeed. -/
theorem buildNewsRecords_isOk {symbol : String} {body : List JValue}
    (h : body.all (fun r => (buildNewsRecord symbol r).isOk) = true) :
    ∃ l, buildNewsRecords symbol body = .ok l := by
  induction body with
  | nil => exact ⟨[], rfl⟩
  | cons r rest ih =>
      rw [List.all_cons, Bool.and_eq_true] at h
      obtain ⟨hr, hrest⟩ := h
      obtain ⟨l, hl⟩ := ih hrest
      rcases hb : buildNewsRecord symbol r with e | n
      · rw [hb] at hr
        exact absurd hr (by simp [Except.isOk, Except.toBool])
      · exact ⟨n :: l, by simp [buildNewsRecords, hb, hl, Except.bind]⟩

/-- A clean news run makes the sub-call loop finish from any starting
state. -/
theorem newsLoop_isOk {fetch : String → APIResp} {symbols : List String}
    (h : newsRunClean fetch symbols = true) (st : NewsLoopState) :
    ∃ st', newsLoop fetch symbols st = .ok st' := by
  induction symbols generalizing st with
  | nil => exact ⟨st, rfl⟩
  | cons sym rest ih =>
      rw [newsRunClean, List.all_cons, Bool.and_eq_true] at h
      obtain ⟨hsym, hrest⟩ := h
      have hrest' : newsRunClean fetch rest = true := hrest
      rcases hf : fetch sym with d | e
      · simp only [hf] at hsym
        rcases hb : getBodyList d with e2 | body
        · simp [hb] at hsym
        · simp only [hb] at hsym
          obtain ⟨recs, hrecs⟩ := buildNewsRecords_isOk hsym
          obtain ⟨st', hst'⟩ :=
            ih hrest' ⟨st.processed + body.length, st.failed, st.news ++ recs⟩
          refine ⟨st', ?_⟩
          simp only [newsLoop, hf, hb, hrecs]
          exact hst'
      · obtain ⟨st', hst'⟩ := ih hrest' ⟨st.processed, st.failed + 1, st.news⟩
        refine ⟨st', ?_⟩
        simp only [newsLoop, hf]
        exact hst'

/-- Counter bookkeeping of a finished news loop: the failed counter grows
by the number of unsuccessful sub-calls and the processed counter by the
body lengths of the successful ones. -/
theorem newsLoop_ok_spec {fetch : String → APIResp} {symbols : List String}
    {st st' : NewsLoopState} (h : newsLoop fetch symbols st = .ok st') :
    st'.failed = st.failed + symbols.countP (fun s => isFailure (fetch s)) ∧
    st'.processed = st.processed + (symbols.map (successBodyLen fetch)).sum := by
  induction symbols generalizing st with
  | nil =>
      simp only [newsLoop] at h
      injection h with h2
      subst h2
      simp
  | cons sym rest ih =>
      rcases hf : fetch sym with d | e
      · rcases hb : getBodyList d with e2 | body
        · simp only [newsLoop, hf, hb] at h
          exact Except.noConfusion h
        · rcases hr : buildNewsRecords sym body with e2 | recs
          · simp only [newsLoop, hf, hb, hr] at h
            exact Except.noConfusion h
          · simp only [newsLoop, hf, hb, hr] at h
            obtain ⟨hfail, hproc⟩ := ih h
            dsimp only at hfail hproc
            constructor
            · rw [hfail]
              simp [List.countP_cons, isFailure, hf]
            · rw [hproc]
              simp only [List.map_cons, List.sum_cons, successBodyLen, hf, hb]
              omega
      · simp only [newsLoop, hf] at h
        obtain ⟨hfail, hproc⟩ := ih h
        dsimp only at hfail hproc
        constructor
        · rw [hfail]
          have hps : isFailure (fetch sym) = true := by simp [hf, isFailure]
          simp [List.countP_cons, hps]
          omega
        · rw [hproc]
          simp [successBodyLen, hf]

/-- C1: whenever the news sub-call loop finishes, an unsuccessful
APIResponse only increments failed_items and the loop continues, the job
comes back Completed, failed_items counts exactly the unsuccessful
sub-calls and processed_items sums the body lengths of the successful
ones; in particular the 3-symbol scenario with one HTTP call per symbol,
one failing after exhausted retries and one record per successful call,
returns a Completed job with processed_items 2 and failed_items 1. -/
theorem c1_sub_call_failure_continues (fetch : String → APIResp) (symbols : List String)
    (h : newsRunClean fetch symbols = true) :
    ((extractNews fetch symbols).status = .completed ∧
     (extractNews fetch symbols).failed_items =
        symbols.countP (fun s => isFailure (fetch s)) ∧
     (extractNews fetch symbols).processed_items =
        (symbols.map (successBodyLen fetch)).sum) ∧
    extractNews newsScenarioFetch ["AAPL", "MSFT", "GOOGL"] =
      { status := .completed, total_items := some 2, processed_items := 2,
        failed_items := 1, error_message := none } := by
  refine ⟨?_, by decide⟩
  obtain ⟨st', hok⟩ := newsLoop_isOk h {}
  obtain ⟨hfail, hproc⟩ := newsLoop_ok_spec hok
  unfold extractNews
  rw [hok]
  exact ⟨rfl, by simpa using hfail, by simpa using hproc⟩

/-- C1 (witness): the theorem applied to the concrete scenario client. -/
theorem c1_sub_call_failure_continues_witness :
    newsRunClean newsScenarioFetch ["AAPL", "MSFT", "GOOGL"] = true ∧
    (((extractNews newsScenarioFetch ["AAPL", "MSFT", "GOOGL"]).status = .completed ∧
      (extractNews newsScenarioFetch ["AAPL", "MSFT", "GOOGL"]).failed_items =
        (["AAPL", "MSFT", "GOOGL"] : List String).countP
          (fun s => isFailure (newsScenarioFetch s)) ∧
      (extractNews newsScenarioFetch ["AAPL", "MSFT", "GOOGL"]).processed_items =
        ((["AAPL", "MSFT", "GOOGL"] : List String).map
          (successBodyLen newsScenarioFetch)).sum) ∧
     extractNews newsScenarioFetch ["AAPL", "MSFT", "GOOGL"] =
       { status := .completed, total_items := some 2, processed_items := 2,
         failed_items := 1, error_message := none }) :=
  ⟨by decide, c1_sub_call_failure_continues newsScenarioFetch ["AAPL", "MSFT", "GOOGL"] (by decide)⟩

/-- A clean quotes run makes the batch loop finish from any starting
state. -/
theorem quotesLoop_isOk {fetch : List String → APIResp} {batches : List (List String)}
    (h : quotesRunClean fetch batches = true) (st : QuotesLoopState) :
    ∃ st', quotesLoop fetch batches st = .ok st' := by
  induction batches generalizing st with
  | nil => exact ⟨st, rfl⟩
  | cons batch rest ih =>
      rw [quotesRunClean, List.all_cons, Bool.and_eq_true] at h
      obtain ⟨hbatch, hrest⟩ := h
      have hrest' : quotesRunClean fetch rest = true := hrest
      rcases hf : fetch batch with d | e
      · simp only [hf] at hbatch
        rcases hp : parse_quotes_response d with e2 | qs
        · rw [hp] at hbatch
          exact absurd hbatch (by simp [Except.isOk, Except.toBool])
        · obtain ⟨st', hst'⟩ :=
            ih hrest' ⟨st.processed + qs.length, st.failed, st.quotes ++ qs⟩
          refine ⟨st', ?_⟩
          simp only [quotesLoop, hf, hp]
          exact hst'
      · obtain ⟨st', hst'⟩ := ih hrest' ⟨st.processed, st.failed + batch.length, st.quotes⟩
        refine ⟨st', ?_⟩
        simp only [quotesLoop, hf]
        exact hst'

/-- Accumulated quotes of a finished loop track the processed counter
exactly. -/
theorem quotesLoop_ok_spec {fetch : List String → APIResp} {batches : List (List String)}
    {st st' : QuotesLoopState} (h : quotesLoop fetch batches st = .ok st') :
    st'.quotes.length + st.processed = st.quotes.length + st'.processed := by
  induction batches generalizing st with
  | nil =>
      simp only [quotesLoop] at h
      injection h with h2
      subst h2
      omega
  | cons batch rest ih =>
      rcases hf : fetch batch with d | e
      · rcases hp : parse_quotes_response d with e2 | qs
        · simp only [quotesLoop, hf, hp] at h
          exact Except.noConfusion h
        · simp only [quotesLoop, hf, hp] at h
          have h2 := ih h
          dsimp only at h2
          simp only [List.length_append] at h2
          omega
      · simp only [quotesLoop, hf] at h
        have h2 := ih h
        dsimp only at h2
        exact h2

/-- C2 (counterexample): a one-symbol extraction whose single batch call
fails yields a Completed job with total_items set to 0 while failed_items
is 1, so processed_items + failed_items exceeds total_items. -/
theorem c2_total_items_counterexample :
    (extractQuotes (fun _ => .failure "HTTP 500: Internal Server Error") 100
        ["AAPL"]).total_items = some 0 ∧
    (extractQuotes (fun _ => .failure "HTTP 500: Internal Server Error") 100
        ["AAPL"]).processed_items = 0 ∧
    (extractQuotes (fun _ => .failure "HTTP 500: Internal Server Error") 100
        ["AAPL"]).failed_items = 1 ∧
    ¬((extractQuotes (fun _ => .failure "HTTP 500: Internal Server Error") 100
        ["AAPL"]).processed_items +
      (extractQuotes (fun _ => .failure "HTTP 500: Internal Server Error") 100
        ["AAPL"]).failed_items ≤
      (extractQuotes (fun _ => .failure "HTTP 500: Internal Server Error") 100
        ["AAPL"]).total_items.getD 0) := by
  decide

/-- C2 (amended): for every quotes extraction whose batch loop finishes,
total_items is set to the number of accumulated records, which equals
processed_items, so the claimed invariant processed_items + failed_items
at most total_items holds exactly when failed_items is 0 — it fails in
every run with at least one unsuccessful sub-call. -/
theorem c2_total_items_amended (fetch : List String → APIResp) (bs : ℕ)
    (symbols : List String)
    (h : quotesRunClean fetch (chunkSymbols bs symbols) = true) :
    (extractQuotes fetch bs symbols).total_items =
      some (extractQuotes fetch bs symbols).processed_items ∧
    ((extractQuotes fetch bs symbols).processed_items +
        (extractQuotes fetch bs symbols).failed_items ≤
      (extractQuotes fetch bs symbols).total_items.getD 0 ↔
      (extractQuotes fetch bs symbols).failed_items = 0) := by
  obtain ⟨st', hok⟩ := quotesLoop_isOk h {}
  have hlen := quotesLoop_ok_spec hok
  simp only [QuotesLoopState.quotes, QuotesLoopState.processed, List.length_nil] at hlen
  unfold extractQuotes
  rw [hok]
  constructor
  · simp only [Option.some.injEq]
    omega
  · simp only [Option.getD_some]
    omega

/-- C2 (witness): the amended theorem applied to the failing one-symbol
run of the counterexample. -/
theorem c2_total_items_amended_witness :
    quotesRunClean (fun _ => .failure "HTTP 500: Internal Server Error")
      (chunkSymbols 100 ["AAPL"]) = true ∧
    ((extractQuotes (fun _ => .failure "HTTP 500: Internal Server Error") 100
        ["AAPL"]).total_items =
      some (extractQuotes (fun _ => .failure "HTTP 500: Internal Server Error") 100
        ["AAPL"]).processed_items ∧
     ((extractQuotes (fun _ => .failure "HTTP 500: Internal Server Error") 100
          ["AAPL"]).processed_items +
        (extractQuotes (fun _ => .failure "HTTP 500: Internal Server Error") 100
          ["AAPL"]).failed_items ≤
      (extractQuotes (fun _ => .failure "HTTP 500: Internal Server Error") 100
          ["AAPL"]).total_items.getD 0 ↔
      (extractQuotes (fun _ => .failure "HTTP 500: Internal Server Error") 100
          ["AAPL"]).failed_items = 0)) :=
  ⟨by decide, c2_total_items_amended (fun _ => .failure "HTTP 500: Internal Server Error")
    100 ["AAPL"] (by decide)⟩

/-- One acquisition preserves the bound on the number of recorded
timestamps: pruning cannot grow the list, and when the pruned count has
reached the limit the wait condition is always true (the head of the
pruned list is strictly inside the window), so the oldest entry is popped
before the new timestamp is recorded. -/
theorem wait_if_needed_length (limit : ℕ) (hl : 1 ≤ limit) (now : ℚ) (st : List ℚ)
    (h : st.length ≤ limit) : (wait_if_needed limit now st).length ≤ limit := by
  have hple : (st.filter (fun t => decide (now - 60 < t))).length ≤ st.length :=
    List.length_filter_le _ _
  simp only [wait_if_needed]
  cases hpr : st.filter (fun t => decide (now - 60 < t)) with
  | nil =>
      split_ifs <;> simp <;> omega
  | cons oldest rest =>
      rw [hpr] at hple
      have hmem : oldest ∈ st.filter (fun t => decide (now - 60 < t)) := by
        rw [hpr]; exact List.mem_cons_self _ _
      have hpred : now - 60 < oldest := by
        simpa using (List.mem_filter.mp hmem).2
      have hpos : (0 : ℚ) < 60 - (now - oldest) := by linarith
      split_ifs with hfull
      · dsimp only
        rw [if_pos hpos]
        simp only [List.length_append, List.length_cons, List.length_nil] at *
        omega
      · simp only [List.length_append, List.length_cons, List.length_nil] at *
        omega

/-- C6: starting from an empty limiter, every sequence of acquisition
calls (with arbitrary clock readings) leaves at most limit recorded
timestamps, so in particular at most limit timestamps within the trailing
60-second window of the last call. -/
theorem c6_rate_limiter_bound (limit : ℕ) (hl : 1 ≤ limit) (calls : List ℚ) :
    (calls.foldl (fun st now => wait_if_needed limit now st) []).length ≤ limit ∧
    ((calls.foldl (fun st now => wait_if_needed limit now st) []).filter
        (fun t => decide (calls.getLast?.getD 0 - 60 < t))).length ≤ limit := by
  have main : ∀ (cs : List ℚ) (st : List ℚ), st.length ≤ limit →
      (cs.foldl (fun st now => wait_if_needed limit now st) st).length ≤ limit := by
    intro cs
    induction cs with
    | nil => intro st hst; simpa using hst
    | cons c rest ih =>
        intro st hst
        rw [List.foldl_cons]
        exact ih _ (wait_if_needed_length limit hl c st hst)
  have h1 := main calls [] (by simp)
  exact ⟨h1, (List.length_filter_le _ _).trans h1⟩

/-- C6 (witness): the bound applied to a limit of 2 and four calls inside
one minute. -/
theorem c6_rate_limiter_bound_witness :
    1 ≤ 2 ∧
    ((([0, 10, 20, 30] : List ℚ).foldl (fun st now => wait_if_needed 2 now st) []).length ≤ 2 ∧
     ((([0, 10, 20, 30] : List ℚ).foldl (fun st now => wait_if_needed 2 now st) []).filter
        (fun t => decide (([0, 10, 20, 30] : List ℚ).getLast?.getD 0 - 60 < t))).length ≤ 2) :=
  ⟨by decide, c6_rate_limiter_bound 2 (by decide) [0, 10, 20, 30]⟩

/-- Distinct literal prefixes keep appended strings distinct. -/
theorem error_id_ne_warning_id (s : String) :
    ("error_" ++ s) ≠ ("warning_" ++ s) := by
  intro heq
  have hdata := congrArg String.data heq
  simp [String.data_append] at hdata

/-- C10: two non-valid checks processed in the same wall-clock second
produce alerts sharing one alert id; the returned list carries both (plus
the low-score alert), while the stored alert map retains only the later of
the two colliding alerts, silently overwriting the earlier one. -/
theorem c10_alert_id_collision (t : ℤ) (m₁ m₂ : String) :
    monitor_data_quality t
      [{ data_source := "stock_quotes", check_type := "completeness",
         status := .error, message := m₁ },
       { data_source := "stock_quotes", check_type := "validity",
         status := .error, message := m₂ }] [] =
      ([create_alert t "error" "high" "Data Quality Error: stock_quotes"
          ("completeness: " ++ m₁),
        create_alert t "error" "high" "Data Quality Error: stock_quotes"
          ("validity: " ++ m₂),
        create_alert t "warning" "medium" "Low Data Quality Score"
          "Average data quality score is low"],
       [("error_" ++ toString t,
         create_alert t "error" "high" "Data Quality Error: stock_quotes"
           ("validity: " ++ m₂)),
        ("warning_" ++ toString t,
         create_alert t "warning" "medium" "Low Data Quality Score"
           "Average data quality score is low")]) ∧
    (create_alert t "error" "high" "Data Quality Error: stock_quotes"
        ("completeness: " ++ m₁)).alert_id =
      (create_alert t "error" "high" "Data Quality Error: stock_quotes"
        ("validity: " ++ m₂)).alert_id ∧
    create_alert t "error" "high" "Data Quality Error: stock_quotes"
        ("completeness: " ++ m₁) ≠
      create_alert t "error" "high" "Data Quality Error: stock_quotes"
        ("validity: " ++ m₂) := by
  refine ⟨?_, rfl, ?_⟩
  · have hne := error_id_ne_warning_id (toString t)
    simp only [monitor_data_quality, alertsForCheck, average_quality_score, create_alert,
      List.flatMap_cons, List.flatMap_nil, List.append_nil, List.isEmpty_cons]
    rw [if_pos (by norm_num)]
    simp [storeAlert, hne, Ne.symm hne]
  · intro heq
    have hmsg := congrArg Alert.message heq
    simp only [create_alert] at hmsg
    have hdata := congrArg String.data hmsg
    simp [String.data_append] at hdata

/-- Facts about the case table needed below: uppercase letters are not
case-folded again, and neither side of the table is whitespace. -/
theorem upChar_table : ∀ p ∈ lowerUpperTable,
    lowerUpperTable.find? (fun q => q.1 = p.2) = none ∧
    pyIsSpace p.2 = false ∧ pyIsSpace p.1 = false := by decide

/-- Case folding a character twice folds it once. -/
theorem upChar_idem (c : Char) : upChar (upChar c) = upChar c := by
  cases hf : lowerUpperTable.find? (fun p => p.1 = c) with
  | none =>
      have hid : upChar c = c := by unfold upChar; rw [hf]
      rw [hid]
      exact hid
  | some p =>
      have hup : upChar c = p.2 := by unfold upChar; rw [hf]
      have hmem : p ∈ lowerUpperTable := List.mem_of_find?_eq_some hf
      have htab := upChar_table p hmem
      rw [hup]
      unfold upChar
      rw [htab.1]

/-- Case folding does not change whether a character is whitespace. -/
theorem pyIsSpace_upChar (c : Char) : pyIsSpace (upChar c) = pyIsSpace c := by
  cases hf : lowerUpperTable.find? (fun p => p.1 = c) with
  | none =>
      have hid : upChar c = c := by unfold upChar; rw [hf]
      rw [hid]
  | some p =>
      have hup : upChar c = p.2 := by unfold upChar; rw [hf]
      have hmem : p ∈ lowerUpperTable := List.mem_of_find?_eq_some hf
      have hpc : p.1 = c := by simpa using List.find?_some hf
      have htab := upChar_table p hmem
      rw [hup, htab.2.1, ← hpc, htab.2.2]

/-- Case folding a whole string twice folds it once. -/
theorem upperChars_idem (l : List Char) : upperChars (upperChars l) = upperChars l := by
  have hfun : upChar ∘ upChar = upChar := funext upChar_idem
  simp [upperChars, List.map_map, hfun]

/-- Leading-whitespace removal commutes with case folding. -/
theorem dropWhile_upperChars (l : List Char) :
    (upperChars l).dropWhile pyIsSpace = upperChars (l.dropWhile pyIsSpace) := by
  have hfun : pyIsSpace ∘ upChar = pyIsSpace := funext pyIsSpace_upChar
  simp [upperChars, List.dropWhile_map, hfun]

/-- Whitespace stripping commutes with case folding. -/
theorem trimChars_upperChars (l : List Char) :
    trimChars (upperChars l) = upperChars (trimChars l) := by
  unfold trimChars dropTrail
  rw [dropWhile_upperChars]
  rw [show (upperChars (l.dropWhile pyIsSpace)).reverse
        = upperChars (l.dropWhile pyIsSpace).reverse by simp [upperChars]]
  rw [dropWhile_upperChars]
  simp [upperChars]

/-- Removing a leading run of p twice removes it once. -/
theorem dropWhile_dropWhile (p : α → Bool) (l : List α) :
    (l.dropWhile p).dropWhile p = l.dropWhile p := by
  induction l with
  | nil => rfl
  | cons a t ih =>
      by_cases hp : p a
      · simp [List.dropWhile_cons, hp, ih]
      · simp [List.dropWhile_cons, hp]

/-- The head of a nonempty dropWhile result fails the predicate. -/
theorem dropWhile_head_false {p : α → Bool} {l : List α} {x : α} {xs : List α}
    (h : l.dropWhile p = x :: xs) : p x = false := by
  induction l with
  | nil => simp at h
  | cons a t ih =>
      by_cases hp : p a
      · rw [List.dropWhile_cons_of_pos hp] at h
        exact ih h
      · rw [List.dropWhile_cons_of_neg hp] at h
        injection h with h1 h2
        subst h1
        simpa using hp

/-- Stripping an already-stripped character list is the identity. -/
theorem trimChars_trimChars (l : List Char) : trimChars (trimChars l) = trimChars l := by
  have hvrev : (trimChars l).reverse = (l.dropWhile pyIsSpace).reverse.dropWhile pyIsSpace := by
    simp [trimChars, dropTrail]
  have hpref : trimChars l <+: l.dropWhile pyIsSpace := by
    refine List.reverse_suffix.mp ?_
    rw [hvrev]
    exact List.dropWhile_suffix pyIsSpace
  have hA : (trimChars l).dropWhile pyIsSpace = trimChars l := by
    cases hv : trimChars l with
    | nil => rfl
    | cons x xs =>
        obtain ⟨t2, ht2⟩ := hpref
        rw [hv] at ht2
        have hx : pyIsSpace x = false := by
          have hdw : l.dropWhile pyIsSpace = x :: (xs ++ t2) := by
            rw [← ht2]
            simp
          exact dropWhile_head_false hdw
        exact List.dropWhile_cons_of_neg (by simp [hx])
  have hB : dropTrail pyIsSpace (trimChars l) = trimChars l := by
    unfold dropTrail
    rw [hvrev, dropWhile_dropWhile, ← hvrev, List.reverse_reverse]
  calc trimChars (trimChars l)
      = dropTrail pyIsSpace ((trimChars l).dropWhile pyIsSpace) := rfl
    _ = dropTrail pyIsSpace (trimChars l) := by rw [hA]
    _ = trimChars l := hB

/-- The combined strip-and-uppercase cleaning of the symbol field is
idempotent. -/
theorem stripUpper_idem (s : String) : stripUpper (stripUpper s) = stripUpper s := by
  show String.mk (upperChars (trimChars (upperChars (trimChars s.data))))
      = String.mk (upperChars (trimChars s.data))
  rw [trimChars_upperChars, trimChars_trimChars, upperChars_idem]

/-- An in-place field update that changes nothing is the identity. -/
theorem setField_id {k : String} {f : JValue → JValue} {r : PyRecord}
    (h : ∀ kv ∈ r, kv.1 = k → f kv.2 = kv.2) : setField k f r = r := by
  unfold setField
  conv_rhs => rw [← List.map_id r]
  apply List.map_congr_left
  intro kv hkv
  by_cases hk : kv.1 = k
  · have hf := h kv hkv hk
    simp only [hk, hf, if_true, id_eq]
    rw [← hk]
  · simp [hk]

/-- Folding identity field updates over a key list is the identity. -/
theorem foldl_setField_id {f : JValue → JValue} :
    ∀ (ks : List String) (r : PyRecord), (∀ kv ∈ r, kv.1 ∈ ks → f kv.2 = kv.2) →
      ks.foldl (fun c k => setField k f c) r = r
  | [], _, _ => rfl
  | k :: ks, r, h => by
      rw [List.foldl_cons,
        setField_id (fun kv hkv hk => h kv hkv (by rw [hk]; exact List.mem_cons_self _ _))]
      exact foldl_setField_id ks r (fun kv hkv hk => h kv hkv (List.mem_cons_of_mem _ hk))

/-- Folding field updates over distinct keys applies the update once to
every entry whose key occurs in the list. -/
theorem foldl_setField_eq_map (f : JValue → JValue) :
    ∀ (ks : List String), ks.Nodup → ∀ (r : PyRecord),
      ks.foldl (fun c k => setField k f c) r =
        r.map (fun kv => if kv.1 ∈ ks then (kv.1, f kv.2) else kv)
  | [], _, r => by simp
  | k :: ks, hnd, r => by
      obtain ⟨hk, hnd2⟩ := List.nodup_cons.mp hnd
      rw [List.foldl_cons, foldl_setField_eq_map f ks hnd2 (setField k f r)]
      unfold setField
      rw [List.map_map]
      apply List.map_congr_left
      intro kv _
      by_cases hkv : kv.1 = k
      · simp [Function.comp, hkv, hk, List.mem_cons]
      · simp [Function.comp, hkv, List.mem_cons]

/-- Closed form of _clean_quote_record: one map over the null-filtered
entries, followed by the currency default. -/
theorem clean_quote_record_eq (r : PyRecord) :
    clean_quote_record r =
      (if jhasKey "currency" ((r.filter (fun kv => !kv.2.isNull)).map cleanEntry) then
        (r.filter (fun kv => !kv.2.isNull)).map cleanEntry
      else (r.filter (fun kv => !kv.2.isNull)).map cleanEntry ++
        [("currency", JValue.str "USD")]) := by
  simp only [clean_quote_record]
  rw [foldl_setField_eq_map numClean numericFields (by decide)]
  unfold setField
  rw [List.map_map]
  rfl

/-- Origin of an entry of the mapped base list. -/
theorem mem_clean_base {kv : String × JValue} {r : PyRecord}
    (h : kv ∈ (r.filter (fun kv => !kv.2.isNull)).map cleanEntry) :
    ∃ kv₀, kv₀ ∈ r ∧ kv₀.2.isNull = false ∧ kv = cleanEntry kv₀ := by
  obtain ⟨kv₀, hmem, hkv⟩ := List.mem_map.mp h
  obtain ⟨hr, hnn⟩ := List.mem_filter.mp hmem
  exact ⟨kv₀, hr, by simpa using hnn, hkv.symm⟩

/-- Cleaning an entry preserves its key. -/
theorem cleanEntry_key (kv : String × JValue) : (cleanEntry kv).1 = kv.1 := by
  unfold cleanEntry
  by_cases h1 : kv.1 = "symbol" <;> simp [h1] <;> split_ifs <;> rfl

/-- Cleaning an entry with a numeric-field key coerces its value. -/
theorem cleanEntry_num {kv : String × JValue} (h : kv.1 ∈ numericFields) :
    cleanEntry kv = (kv.1, numClean kv.2) := by
  have hns : kv.1 ≠ "symbol" := by
    intro he
    rw [he] at h
    exact absurd h (by decide)
  unfold cleanEntry
  simp [hns, h]

/-- Cleaning an entry keyed symbol strips and uppercases its value. -/
theorem cleanEntry_symbol {kv : String × JValue} (h : kv.1 = "symbol") :
    cleanEntry kv = (kv.1, JValue.str (stripUpper (pyStr kv.2))) := by
  unfold cleanEntry
  rw [if_pos h]
  rw [if_neg]
  rw [h]
  exact (by decide : "symbol" ∉ numericFields)

/-- Cleaning leaves entries of other keys untouched. -/
theorem cleanEntry_other {kv : String × JValue} (h1 : kv.1 ≠ "symbol")
    (h2 : kv.1 ∉ numericFields) : cleanEntry kv = kv := by
  unfold cleanEntry
  simp [h1, h2]

/-- The numeric coercion yields a number or None. -/
theorem numClean_cases (v : JValue) :
    (∃ q, numClean v = JValue.num q) ∨ numClean v = JValue.null := by
  unfold numClean
  cases h : parse_numeric v with
  | none => exact Or.inr rfl
  | some q => exact Or.inl ⟨q, rfl⟩

/-- A record satisfying CleanStable is a fixed point of the cleaner. -/
theorem clean_quote_record_of_stable {r : PyRecord} (hs : CleanStable r) :
    clean_quote_record r = r := by
  obtain ⟨hnull, hnum, hsym, hcur⟩ := hs
  have h1 : r.filter (fun kv => !kv.2.isNull) = r :=
    List.filter_eq_self.mpr (fun kv hkv => by simp [hnull kv hkv])
  have h2 : setField "symbol" (fun v => JValue.str (stripUpper (pyStr v))) r = r :=
    setField_id (fun kv hkv hk => by
      obtain ⟨s2, hv, hfix⟩ := hsym kv hkv hk
      rw [hv]
      simp [pyStr, hfix])
  have h3 : numericFields.foldl (fun c f => setField f numClean c) r = r :=
    foldl_setField_id numericFields r (fun kv hkv hk => by
      obtain ⟨q, hv⟩ := hnum kv hkv hk
      rw [hv]
      simp [numClean, parse_numeric])
  simp only [clean_quote_record]
  rw [h1, h2, h3, hcur]
  simp

/-- One cleaning pass yields a CleanOnce record. -/
theorem cleanOnce_clean (r : PyRecord) : CleanOnce (clean_quote_record r) := by
  rw [clean_quote_record_eq]
  have hb : CleanOnce ((r.filter (fun kv => !kv.2.isNull)).map cleanEntry) := by
    constructor
    · intro kv hkv hknum
      obtain ⟨kv₀, _, _, hkveq⟩ := mem_clean_base hkv
      subst hkveq
      have hk0 : kv₀.1 ∈ numericFields := by rwa [cleanEntry_key] at hknum
      rw [cleanEntry_num hk0]
      rcases numClean_cases kv₀.2 with ⟨q, hq⟩ | hq
      · exact Or.inl ⟨q, by simpa using hq⟩
      · exact Or.inr (by simpa using hq)
    · intro kv hkv hksym
      obtain ⟨kv₀, _, _, hkveq⟩ := mem_clean_base hkv
      subst hkveq
      have hk0 : kv₀.1 = "symbol" := by rwa [cleanEntry_key] at hksym
      rw [cleanEntry_symbol hk0]
      exact ⟨stripUpper (pyStr kv₀.2), rfl, stripUpper_idem _⟩
  split_ifs with hif
  · exact hb
  · constructor
    · intro kv hkv hknum
      rcases List.mem_append.mp hkv with hkv2 | hkv2
      · exact hb.1 kv hkv2 hknum
      · simp only [List.mem_singleton] at hkv2
        subst hkv2
        exact absurd hknum (by decide)
    · intro kv hkv hksym
      rcases List.mem_append.mp hkv with hkv2 | hkv2
      · exact hb.2 kv hkv2 hksym
      · simp only [List.mem_singleton] at hkv2
        subst hkv2
        exact absurd hksym (by decide)

/-- Cleaning a CleanOnce record yields a CleanStable record. -/
theorem cleanStable_of_cleanOnce {c : PyRecord} (h : CleanOnce c) :
    CleanStable (clean_quote_record c) := by
  obtain ⟨hnum, hsym⟩ := h
  rw [clean_quote_record_eq]
  have hbase :
      (∀ kv ∈ (c.filter (fun kv => !kv.2.isNull)).map cleanEntry, kv.2.isNull = false) ∧
      (∀ kv ∈ (c.filter (fun kv => !kv.2.isNull)).map cleanEntry,
        kv.1 ∈ numericFields → ∃ q, kv.2 = JValue.num q) ∧
      (∀ kv ∈ (c.filter (fun kv => !kv.2.isNull)).map cleanEntry,
        kv.1 = "symbol" → ∃ s, kv.2 = JValue.str s ∧ stripUpper s = s) := by
    refine ⟨?_, ?_, ?_⟩
    · intro kv hkv
      obtain ⟨kv₀, hr, hnn, hkveq⟩ := mem_clean_base hkv
      subst hkveq
      by_cases hs2 : kv₀.1 = "symbol"
      · rw [cleanEntry_symbol hs2]
        rfl
      · by_cases hn2 : kv₀.1 ∈ numericFields
        · rw [cleanEntry_num hn2]
          rcases hnum kv₀ hr hn2 with ⟨q, hv⟩ | hv
          · rw [hv]
            simp [numClean, parse_numeric, JValue.isNull]
          · rw [hv] at hnn
            exact absurd hnn (by simp [JValue.isNull])
        · rw [cleanEntry_other hs2 hn2]
          exact hnn
    · intro kv hkv hknum
      obtain ⟨kv₀, hr, hnn, hkveq⟩ := mem_clean_base hkv
      subst hkveq
      have hk0 : kv₀.1 ∈ numericFields := by rwa [cleanEntry_key] at hknum
      rw [cleanEntry_num hk0]
      rcases hnum kv₀ hr hk0 with ⟨q, hv⟩ | hv
      · rw [hv]
        exact ⟨q, by simp [numClean, parse_numeric]⟩
      · rw [hv] at hnn
        exact absurd hnn (by simp [JValue.isNull])
    · intro kv hkv hksym
      obtain ⟨kv₀, hr, hnn, hkveq⟩ := mem_clean_base hkv
      subst hkveq
      have hk0 : kv₀.1 = "symbol" := by rwa [cleanEntry_key] at hksym
      rw [cleanEntry_symbol hk0]
      exact ⟨stripUpper (pyStr kv₀.2), rfl, stripUpper_idem _⟩
  obtain ⟨hb1, hb2, hb3⟩ := hbase
  split_ifs with hif
  · exact ⟨hb1, hb2, hb3, hif⟩
  · refine ⟨?_, ?_, ?_, ?_⟩
    · intro kv hkv
      rcases List.mem_append.mp hkv with hkv2 | hkv2
      · exact hb1 kv hkv2
      · simp only [List.mem_singleton] at hkv2
        subst hkv2
        rfl
    · intro kv hkv hknum
      rcases List.mem_append.mp hkv with hkv2 | hkv2
      · exact hb2 kv hkv2 hknum
      · simp only [List.mem_singleton] at hkv2
        subst hkv2
        exact absurd hknum (by decide)
    · intro kv hkv hksym
      rcases List.mem_append.mp hkv with hkv2 | hkv2
      · exact hb3 kv hkv2 hksym
      · simp only [List.mem_singleton] at hkv2
        subst hkv2
        exact absurd hksym (by decide)
    · simp [jhasKey, List.any_append]

/-- A cleaned record always carries the currency key, so it is never the
empty (falsy) dict and clean_quote_data keeps every record. -/
theorem clean_quote_record_ne_nil (r : PyRecord) : clean_quote_record r ≠ [] := by
  rw [clean_quote_record_eq]
  split_ifs with hif
  · intro h
    rw [h] at hif
    simp [jhasKey] at hif
  · simp

/-- clean_quote_data is exactly the per-record map. -/
theorem clean_quote_data_eq_map (l : List PyRecord) :
    clean_quote_data l = l.map clean_quote_record := by
  unfold clean_quote_data
  apply List.filter_eq_self.mpr
  intro r hr
  obtain ⟨r₀, _, hr₀⟩ := List.mem_map.mp hr
  subst hr₀
  simpa [List.isEmpty_iff] using clean_quote_record_ne_nil r₀

/-- C8 (counterexample): cleaning a record whose price is the unparseable
string abc leaves a None-valued price, and a second cleaning pass drops
that key, so the Clean stage is not idempotent. -/
theorem c8_clean_not_idempotent_counterexample :
    clean_quote_data [[("symbol", JValue.str "a"), ("price", JValue.str "abc")]] =
      [[("symbol", JValue.str "A"), ("price", JValue.null),
        ("currency", JValue.str "USD")]] ∧
    clean_quote_data [[("symbol", JValue.str "A"), ("price", JValue.null),
        ("currency", JValue.str "USD")]] =
      [[("symbol", JValue.str "A"), ("currency", JValue.str "USD")]] ∧
    clean_quote_data (clean_quote_data
        [[("symbol", JValue.str "a"), ("price", JValue.str "abc")]]) ≠
      clean_quote_data [[("symbol", JValue.str "a"), ("price", JValue.str "abc")]] := by
  have e1 : clean_quote_data [[("symbol", JValue.str "a"), ("price", JValue.str "abc")]] =
      [[("symbol", JValue.str "A"), ("price", JValue.null),
        ("currency", JValue.str "USD")]] := rfl
  have e2 : clean_quote_data [[("symbol", JValue.str "A"), ("price", JValue.null),
      ("currency", JValue.str "USD")]] =
      [[("symbol", JValue.str "A"), ("currency", JValue.str "USD")]] := rfl
  refine ⟨e1, e2, ?_⟩
  intro heq
  rw [e1, e2] at heq
  simp at heq

/-- C8 (amended): the Clean stage is not idempotent (see the
counterexample), but a second pass is stable: cleaning twice-cleaned data
changes nothing, so clean composed with itself is idempotent. -/
theorem c8_clean_twice_stable_amended (quotes : List PyRecord) :
    clean_quote_data (clean_quote_data (clean_quote_data quotes)) =
      clean_quote_data (clean_quote_data quotes) := by
  rw [clean_quote_data_eq_map quotes,
      clean_quote_data_eq_map (quotes.map clean_quote_record),
      clean_quote_data_eq_map ((quotes.map clean_quote_record).map clean_quote_record),
      List.map_map, List.map_map, List.map_map]
  apply List.map_congr_left
  intro r _
  simp only [Function.comp_apply]
  exact clean_quote_record_of_stable (cleanStable_of_cleanOnce (cleanOnce_clean r))
